import Mathlib

/-!
Shallow embedding of the cheek job scheduler core (schedule loading and
validation, single-attempt job execution, retry wrapping, finalization and
the event cascade) together with theorems settling the specification
claims.  Go maps are embedded as association lists, machine `int` as `Int`,
and external effects (the cron parser, the text/template engine, process
execution, the log file on disk) as explicit oracle parameters.
-/

namespace Cheek

/-- Parameter mappings (Go `map[string]string`) as association lists. -/
abbrev Params := List (String × String)

/-- Embedding of the Go struct `OnEvent`: what happens after a job event. -/
structure OnEvent where
  triggerJob : List String := []
  notifyWebhook : List String := []
  notifySlackWebhook : List String := []
deriving DecidableEq

/-- Embedding of the Go struct `JobSpec` (fields the core logic reads).
The `globalSchedule` back-pointer is passed explicitly to the functions
that use it, since Lean structures cannot hold the pointer cycle. -/
structure JobSpec where
  cron : String := ""
  command : List String := []
  params : Params := []
  onSuccess : OnEvent := {}
  onError : OnEvent := {}
  name : String := ""
  retries : Int := 0
  env : Params := []
  workingDirectory : String := ""
deriving DecidableEq

/-- Embedding of the Go struct `JobRun`: one execution attempt record.
`logBuf` is the captured output buffer, `log` the flushed string field.
The Go zero value of the struct is `({} : JobRun)`. -/
structure JobRun where
  status : Int := 0
  logBuf : String := ""
  log : String := ""
  name : String := ""
  triggeredAt : Nat := 0
  triggeredBy : String := ""
  triggered : List String := []
  duration : Nat := 0
  params : Params := []
deriving DecidableEq

/-- Embedding of the Go struct `Schedule`. `jobs` is the job map as an
association list.  The schedule-wide `OnSuccess`/`OnError` defaults are the
fields read by `JobSpec.OnEvent` through the `globalSchedule` pointer. -/
structure Schedule where
  jobs : List (String × JobSpec) := []
  onSuccess : OnEvent := {}
  onError : OnEvent := {}
deriving DecidableEq

/-- Lookup in the job map (Go `s.Jobs[name]`, presence variant). -/
def lookupJob (s : Schedule) (n : String) : Option JobSpec :=
  (s.jobs.find? (fun kv => kv.1 == n)).map (·.2)

/-- Embedding of the validation done for one entry `(k, v)` of the job map
inside `Schedule.Validate`: first the cron string check, then the dangling
`trigger_job` reference check over `on_success` followed by `on_error`.
The syntactic cron validity test (library `gronx.IsValid`) is the oracle
`isValidCron`. -/
def validateJob (isValidCron : String → Bool) (s : Schedule) (k : String) (v : JobSpec) :
    Option String :=
  if v.cron ≠ "" ∧ ¬ isValidCron v.cron then
    some ("cron string for job \x27" ++ k ++ "\x27 not valid")
  else
    (v.onSuccess.triggerJob ++ v.onError.triggerJob).findSome? fun t =>
      if lookupJob s t = none then
        some ("cannot find spec of job \x27" ++ t ++ "\x27 that is referenced in job \x27"
              ++ k ++ "\x27")
      else
        none

/-- Embedding of `Schedule.Validate`: the first error produced while
walking the job map, if any (`none` means the schedule is valid).  The
name/back-pointer back-fill that `Validate` also performs is modelled by
passing the schedule and job name explicitly elsewhere. -/
def Validate (isValidCron : String → Bool) (s : Schedule) : Option String :=
  s.jobs.findSome? fun kv => validateJob isValidCron s kv.1 kv.2

/-- Embedding of `loadSchedule`.  Reading and YAML-parsing the schedule
file (`readSpecs`) is external I/O, so its outcome is the parameter
`parsed`.  Note the source returns the pair `Schedule\x7b\x7d, nil` when
`Validate` fails, i.e. an empty schedule with a `nil` error. -/
def loadSchedule (isValidCron : String → Bool) (parsed : Except String Schedule) :
    Except String Schedule :=
  match parsed with
  | .error e => .error e
  | .ok s =>
    match Validate isValidCron s with
    | some _ => .ok {}
    | none => .ok s

/-- Embedding of the startup decision in `RunSchedule`: the engine (HTTP
server goroutine plus the ticking `Run` loop) is started exactly when
`loadSchedule` reports no error; otherwise the process exits. -/
def runScheduleStartsEngine (isValidCron : String → Bool)
    (parsed : Except String Schedule) : Bool :=
  match loadSchedule isValidCron parsed with
  | .ok _ => true
  | .error _ => false

/-- Concrete schedule whose only job references a job name that is not a
key of the job map. -/
def ghostSchedule : Schedule :=
  { jobs := [("a", { command := ["true"], onSuccess := { triggerJob := ["ghost"] } })] }

/-- Oracle for the text/template engine used on command arguments:
`parse` is `template.New("param").Parse` (returning the parsed template) and
`exec` is `tmpl.Execute` against a parameter mapping; either step may fail. -/
structure TemplateEngine where
  parse : String → Except String String
  exec : String → Params → Except String String

/-- Embedding of the per-argument rendering step inside `execCommand`:
parse the argument as a template, execute it against the parameters, and on
failure of either step fall back to the literal argument string. -/
def renderParam (te : TemplateEngine) (parameters : Params) (param : String) : String :=
  match te.parse param with
  | .error _ => param
  | .ok tmpl =>
    match te.exec tmpl parameters with
    | .error _ => param
    | .ok rendered => rendered

/-- Outcome of running the external process of one attempt:
it fails to start (`cmd.Start` error), the wait fails without an exit code
(`cmd.Wait` error that is not an `ExitError`), or it exits with a code,
having written `output` to the merged stdout/stderr capture. -/
inductive ProcResult where
  | startFailure (msg : String)
  | waitOtherError (output : String)
  | exited (code : Int) (output : String)
deriving DecidableEq

/-- The external world of one execution attempt: the template engine, the
wall-clock trigger time, the elapsed time measured at completion, and the
process outcome as a function of the argv actually spawned. -/
structure ExecEnv where
  te : TemplateEngine
  now : Nat
  elapsed : Nat
  proc : List String → ProcResult

/-- Embedding of the `switch len(j.Command)` argv construction in
`execCommand`: `none` for an empty command, the bare executable for a
single-element command, and the executable followed by the rendered
arguments otherwise. -/
def execArgv (te : TemplateEngine) (parameters : Params) : List String → Option (List String)
  | [] => none
  | [c] => some [c]
  | c :: rest => some (c :: rest.map (renderParam te parameters))

/-- Result of one `execCommand` call: the run, whether `cmd.Start` was
reached (a process spawn was attempted), and the argv handed to it. -/
structure ExecResult where
  run : JobRun
  startAttempted : Bool
  argv : Option (List String)
deriving DecidableEq

/-- Embedding of `JobSpec.execCommand`: one execution attempt.  The run
starts with the sentinel status `-1`; an empty command returns at once with
a descriptive `Log` and no spawn; otherwise the process runs and exit code
`0` takes the success path (status `0`, duration recorded) while failures
leave the sentinel or record the non-zero exit code with zero duration. -/
def execCommand (j : JobSpec) (trigger : String) (parameters : Params) (env : ExecEnv) :
    ExecResult :=
  let jr : JobRun :=
    { name := j.name, triggeredAt := env.now, triggeredBy := trigger, status := -1 }
  match execArgv env.te parameters j.command with
  | none =>
    { run := { jr with log := "Job unable to start: no command specified" },
      startAttempted := false, argv := none }
  | some argv =>
    match env.proc argv with
    | .startFailure msg =>
      { run := { jr with logBuf := jr.logBuf ++ "job unable to start: " ++ msg },
        startAttempted := true, argv := some argv }
    | .waitOtherError out =>
      { run := { jr with logBuf := jr.logBuf ++ out },
        startAttempted := true, argv := some argv }
    | .exited code out =>
      if code = 0 then
        { run := { jr with logBuf := jr.logBuf ++ out, duration := env.elapsed, status := 0 },
          startAttempted := true, argv := some argv }
      else
        { run := { jr with logBuf := jr.logBuf ++ out, status := code },
          startAttempted := true, argv := some argv }

/-- Outcome of the log file operations of one finalization: whether the
per-job log file could be opened for appending, and whether the JSON
encoder could write the record. -/
structure DiskOutcome where
  openOk : Bool := true
  writeOk : Bool := true
deriving DecidableEq

/-- Embedding of `JobRun.logToDisk`: returns whether the record was
durably appended and the warnings emitted.  The run itself is never
modified (the source only reads it). -/
def logToDisk (jr : JobRun) (d : DiskOutcome) : Bool × List String :=
  if ¬ d.openOk then
    (false, ["Can\x27t open job log \x27" ++ jr.name ++ ".job.jsonl\x27 for writing"])
  else if ¬ d.writeOk then
    (false, ["Couldn\x27t save job log to disk."])
  else
    (true, [])

/-- One dependent-job dispatch recorded by the event cascade: the looked-up
job, the trigger descriptor, and the parameter mapping handed to the
retry-wrapped execution `execCommandWithRetry` it launches. -/
structure TriggerCall where
  jobName : String
  job : Option JobSpec
  trigger : String
  params : Params
deriving DecidableEq

/-- Everything dispatched by one `OnEvent` invocation. -/
structure CascadeResult where
  jobTriggers : List TriggerCall
  webhookCalls : List String
  slackWebhookCalls : List String
deriving DecidableEq

/-- Embedding of the method `JobSpec.OnEvent`: select the action lists by
the run outcome (status `0` picks `on_success`, anything else `on_error`),
appending the global schedule lists after the local ones when a global
schedule is attached, then record one retry-wrapped dispatch per dependent
job name with descriptor `job[<parent>]` and empty parameters. -/
def JobSpec.OnEvent (j : JobSpec) (gs : Option Schedule) (jr : JobRun) : CascadeResult :=
  let glob :=
    match gs with
    | some g => if jr.status = 0 then g.onSuccess else g.onError
    | none => ({} : Cheek.OnEvent)
  let loc := if jr.status = 0 then j.onSuccess else j.onError
  let jobsToTrigger := loc.triggerJob ++ glob.triggerJob
  let webhooksToCall := loc.notifyWebhook ++ glob.notifyWebhook
  let slackWebhooksToCall := loc.notifySlackWebhook ++ glob.notifySlackWebhook
  { jobTriggers := jobsToTrigger.map fun tn =>
      { jobName := tn, job := gs.bind fun g => lookupJob g tn,
        trigger := "job[" ++ j.name ++ "]", params := [] }
    webhookCalls := webhooksToCall
    slackWebhookCalls := slackWebhooksToCall }

/-- Result of `JobSpec.finalize`: the run after the log buffer flush,
whether the record was persisted, the persistence warnings, and the event
cascade fired for the run. -/
structure FinalizeResult where
  run : JobRun
  persisted : Bool
  warnings : List String
  cascade : CascadeResult
deriving DecidableEq

/-- Embedding of `JobSpec.finalize`: flush the log buffer into `log`,
write the record to disk (best effort), then launch the event cascade. -/
def finalize (j : JobSpec) (gs : Option Schedule) (jr : JobRun) (d : DiskOutcome) :
    FinalizeResult :=
  let jr := { jr with log := jr.logBuf }
  let disk := logToDisk jr d
  { run := jr, persisted := disk.1, warnings := disk.2, cascade := j.OnEvent gs jr }

/-- The external world of one attempt of the retry loop. -/
structure AttemptEnv where
  env : ExecEnv
  disk : DiskOutcome

/-- The trigger descriptor used for attempt number `tries` (0-based) inside
`execCommandWithRetry`: the caller descriptor unmodified for the first
attempt, the retry-annotated descriptor afterwards. -/
def attemptTrigger (trigger : String) (tries : Nat) : String :=
  if tries = 0 then trigger else trigger ++ "[retry=" ++ toString tries ++ "]"

/-- Record of one attempt performed by the retry loop: the descriptor it
used and the finalization (persist + cascade) performed right after it. -/
structure Attempt where
  trigger : String
  fin : FinalizeResult
deriving DecidableEq

/-- The attempt the retry loop performs at counter value `n`: execute the
command under descriptor `attemptTrigger trigger n` in world `world n` and
finalize the resulting run. -/
def mkAttempt (j : JobSpec) (gs : Option Schedule) (trigger : String) (parameters : Params)
    (world : Nat → AttemptEnv) (n : Nat) : Attempt :=
  { trigger := attemptTrigger trigger n,
    fin := finalize j gs
      (execCommand j (attemptTrigger trigger n) parameters (world n).env).run
      (world n).disk }

/-- Embedding of the `for tries < j.Retries+1` loop body of
`execCommandWithRetry`, by recursion on the remaining loop budget.
Returns the run the loop leaves in `jr`, the list of attempts performed
(each finalized), and the number of backoff sleeps taken.  A successful
attempt (status `0` after finalize) breaks out with no further attempt and
no sleep; a failed attempt sleeps and continues. -/
def execRetryGo (j : JobSpec) (gs : Option Schedule) (trigger : String) (parameters : Params)
    (world : Nat → AttemptEnv) (jr : JobRun) (tries : Nat) :
    Nat → JobRun × List Attempt × Nat
  | 0 => (jr, [], 0)
  | remaining + 1 =>
    let att := mkAttempt j gs trigger parameters world tries
    if att.fin.run.status = 0 then
      (att.fin.run, [att], 0)
    else
      let rest := execRetryGo j gs trigger parameters world att.fin.run (tries + 1) remaining
      (rest.1, att :: rest.2.1, rest.2.2 + 1)

/-- Embedding of `JobSpec.execCommandWithRetry`: run the loop starting
from the zero-valued `JobRun` with the attempt counter at `0` and budget
`j.Retries + 1` (clamped at zero, as the Go loop condition makes a negative
`Retries` skip the loop entirely). -/
def execCommandWithRetry (j : JobSpec) (gs : Option Schedule) (trigger : String)
    (parameters : Params) (world : Nat → AttemptEnv) : JobRun × List Attempt × Nat :=
  execRetryGo j gs trigger parameters world {} 0 (j.retries + 1).toNat

/-- Concrete parent job for the C6 witness. -/
def jParent : JobSpec :=
  { name := "p", onSuccess := { triggerJob := ["x"] }, onError := { triggerJob := ["y"] } }

/-- Concrete global schedule for the C6 witness. -/
def gGlobal : Schedule :=
  { jobs := [("x", {})], onError := { triggerJob := ["x"] } }

/-- Template engine for the C7 witness: parsing fails on the argument
`badTmpl`, executing `msgTmpl` looks up the parameter `msg` and fails when
it is not supplied. -/
def teWitness : TemplateEngine :=
  { parse := fun s => if s = "badTmpl" then .error ("parse failure") else .ok s,
    exec := fun t ps =>
      if t = "msgTmpl" then
        match ps.find? (fun kv => kv.1 == "msg") with
        | some kv => .ok kv.2
        | none => .error ("missing parameter")
      else .ok t }

/-- Template engine whose parse and execution always succeed with the
argument itself (enough for witness jobs with literal arguments). -/
def teId : TemplateEngine :=
  { parse := fun s => .ok s, exec := fun t _ => .ok t }

/-- Execution environment whose process always exits with the given code
and output, at elapsed time 11. -/
def envExit (code : Int) (out : String) : ExecEnv :=
  { te := teId, now := 3, elapsed := 11, proc := fun _ => .exited code out }

/-- One-attempt-per-call world whose process always fails with exit code
`1` and whose disk always accepts the record. -/
def worldFail : Nat → AttemptEnv :=
  fun _ => { env := { te := teId, now := 0, elapsed := 0, proc := fun _ => .exited 1 "" },
             disk := {} }

/-- World for the C3 witness: the first attempt fails with exit code `1`,
every later attempt succeeds. -/
def worldFailThenOk : Nat → AttemptEnv :=
  fun n => { env := { te := teId, now := 0, elapsed := 0,
                      proc := fun _ => if n = 0 then .exited 1 "" else .exited 0 "" },
             disk := {} }

/-- Finalization only flushes the log buffer into `log`; every other field
of the run, in particular its status, is unchanged. -/
lemma finalize_run_status (j : JobSpec) (gs : Option Schedule) (jr : JobRun)
    (d : DiskOutcome) : (finalize j gs jr d).run.status = jr.status := rfl

/-- The status recorded for an attempt of the retry loop is the status the
execution itself produced. -/
lemma mkAttempt_status (j : JobSpec) (gs : Option Schedule) (trigger : String)
    (parameters : Params) (world : Nat → AttemptEnv) (n : Nat) :
    (mkAttempt j gs trigger parameters world n).fin.run.status
      = (execCommand j (attemptTrigger trigger n) parameters (world n).env).run.status := rfl

/-- Characterization of `execCommand` when the command is empty: the match
on the argv reduces to the no-command branch. -/
lemma execCommand_none (j : JobSpec) (trigger : String) (parameters : Params) (env : ExecEnv)
    (hA : execArgv env.te parameters j.command = none) :
    execCommand j trigger parameters env =
      { run := { status := -1, log := "Job unable to start: no command specified",
                 name := j.name, triggeredAt := env.now, triggeredBy := trigger },
        startAttempted := false, argv := none } := by
  unfold execCommand
  rw [hA]

/-- Characterization of `execCommand` when the command is non-empty: the
attempt reduces to the match on the process outcome for the built argv. -/
lemma execCommand_some (j : JobSpec) (trigger : String) (parameters : Params) (env : ExecEnv)
    (argv : List String) (hA : execArgv env.te parameters j.command = some argv) :
    execCommand j trigger parameters env =
      (let jr : JobRun := { name := j.name, triggeredAt := env.now, triggeredBy := trigger,
                            status := -1 }
       match env.proc argv with
       | .startFailure msg =>
         { run := { jr with logBuf := jr.logBuf ++ "job unable to start: " ++ msg },
           startAttempted := true, argv := some argv }
       | .waitOtherError out =>
         { run := { jr with logBuf := jr.logBuf ++ out }, startAttempted := true,
           argv := some argv }
       | .exited code out =>
         if code = 0 then
           { run := { jr with logBuf := jr.logBuf ++ out, duration := env.elapsed, status := 0 },
             startAttempted := true, argv := some argv }
         else
           { run := { jr with logBuf := jr.logBuf ++ out, status := code },
             startAttempted := true, argv := some argv }) := by
  unfold execCommand
  rw [hA]

/-- Characterization of the event cascade in the presence of a global
schedule: both the selection by outcome and the dispatch records, with all
branch selections hoisted into conditionals. -/
lemma OnEvent_some (j : JobSpec) (g : Schedule) (jr : JobRun) :
    j.OnEvent (some g) jr =
      { jobTriggers :=
          ((if jr.status = 0 then j.onSuccess.triggerJob else j.onError.triggerJob)
            ++ (if jr.status = 0 then g.onSuccess.triggerJob else g.onError.triggerJob)).map
            (fun tn => { jobName := tn, job := lookupJob g tn,
                         trigger := "job[" ++ j.name ++ "]", params := [] }),
        webhookCalls :=
          (if jr.status = 0 then j.onSuccess.notifyWebhook else j.onError.notifyWebhook)
            ++ (if jr.status = 0 then g.onSuccess.notifyWebhook else g.onError.notifyWebhook),
        slackWebhookCalls :=
          (if jr.status = 0 then j.onSuccess.notifySlackWebhook else j.onError.notifySlackWebhook)
            ++ (if jr.status = 0 then g.onSuccess.notifySlackWebhook
                else g.onError.notifySlackWebhook) } := by
  unfold JobSpec.OnEvent
  by_cases h : jr.status = 0 <;> simp [h]

/-- Unrolling of the retry loop when every attempt fails: the loop runs
through its whole budget, performing and finalizing one attempt per counter
value and sleeping after each failure, and leaves the last finalized run. -/
lemma execRetryGo_all_fail (j : JobSpec) (gs : Option Schedule) (trigger : String)
    (parameters : Params) (world : Nat → AttemptEnv)
    (hfail : ∀ n, (mkAttempt j gs trigger parameters world n).fin.run.status ≠ 0) :
    ∀ (rem tries : Nat) (jr : JobRun),
    execRetryGo j gs trigger parameters world jr tries rem
      = ( (if rem = 0 then jr
           else (mkAttempt j gs trigger parameters world (tries + (rem - 1))).fin.run)
        , (List.range' tries rem).map (fun i => mkAttempt j gs trigger parameters world i)
        , rem ) := by
  intro rem
  induction rem with
  | zero => intro tries jr; rfl
  | succ r ih =>
    intro tries jr
    rw [execRetryGo]
    simp only [if_neg (hfail tries)]
    rw [ih (tries + 1) (mkAttempt j gs trigger parameters world tries).fin.run]
    rw [List.range'_succ, List.map_cons]
    cases r with
    | zero => simp
    | succ r' =>
      have h1 : tries + 1 + (r' + 1 - 1) = tries + (r' + 1 + 1 - 1) := by omega
      simp only [Nat.succ_ne_zero, if_neg, if_false, ite_false, reduceIte, h1]

/-- Unrolling of the retry loop when the attempt at counter value `s`
succeeds after failures: the loop stops right at `s`, with one sleep per
failed attempt and none after the success, returning the successful run. -/
lemma execRetryGo_success_at (j : JobSpec) (gs : Option Schedule) (trigger : String)
    (parameters : Params) (world : Nat → AttemptEnv) (s : Nat)
    (hbefore : ∀ n, n < s → (mkAttempt j gs trigger parameters world n).fin.run.status ≠ 0)
    (hsucc : (mkAttempt j gs trigger parameters world s).fin.run.status = 0) :
    ∀ (rem tries : Nat) (jr : JobRun), tries ≤ s → s < tries + rem →
    execRetryGo j gs trigger parameters world jr tries rem
      = ( (mkAttempt j gs trigger parameters world s).fin.run
        , (List.range' tries (s + 1 - tries)).map
            (fun i => mkAttempt j gs trigger parameters world i)
        , s - tries ) := by
  intro rem
  induction rem with
  | zero => intro tries jr h1 h2; omega
  | succ r ih =>
    intro tries jr h1 h2
    rw [execRetryGo]
    by_cases he : tries = s
    · subst he
      rw [if_pos hsucc]
      have h3 : tries + 1 - tries = 1 := by omega
      simp [h3, List.range'_one, Nat.sub_self]
    · have hlt : tries < s := lt_of_le_of_ne h1 he
      rw [if_neg (hbefore tries hlt)]
      rw [ih (tries + 1) (mkAttempt j gs trigger parameters world tries).fin.run
          (by omega) (by omega)]
      have h4 : s + 1 - tries = (s + 1 - (tries + 1)) + 1 := by omega
      rw [h4, List.range'_succ, List.map_cons]
      have h5 : s - (tries + 1) + 1 = s - tries := by omega
      simp only [h5]

/-- C1: the claim states that loading a schedule with a dangling
`trigger_job` reference makes `loadSchedule` return an error naming the
offending job, so that the engine never starts.  On the code this fails:
`Validate` does build that error, but `loadSchedule` discards it and
returns an empty schedule together with a `nil` error, so `RunSchedule`
goes on to start the engine. -/
theorem C1_loadSchedule_discards_validation_error :
    Validate (fun _ => true) ghostSchedule
      = some ("cannot find spec of job \x27ghost\x27 that is referenced in job \x27a\x27")
    ∧ loadSchedule (fun _ => true) (Except.ok ghostSchedule) = Except.ok ({} : Schedule)
    ∧ runScheduleStartsEngine (fun _ => true) (Except.ok ghostSchedule) = true := by
  refine ⟨by decide, rfl, rfl⟩

/-- C2: for a job with `Retries = R ≥ 0` whose command fails on every
attempt, the retry wrapper performs exactly `R + 1` attempts, finalizes
(persists and cascades) after every single one, uses the caller descriptor
unmodified for the first attempt and the retry-annotated descriptor
`trigger[retry=N]` for attempt `N ≥ 1`, and returns the last attempt run. -/
theorem C2_failing_command_exhausts_attempts (j : JobSpec) (gs : Option Schedule)
    (trigger : String) (parameters : Params) (world : Nat → AttemptEnv) (R : Nat)
    (hR : j.retries = (R : Int))
    (hfail : ∀ n, (execCommand j (attemptTrigger trigger n) parameters
        (world n).env).run.status ≠ 0) :
    (execCommandWithRetry j gs trigger parameters world).2.1
        = (List.range' 0 (R + 1)).map (fun i => mkAttempt j gs trigger parameters world i)
    ∧ (execCommandWithRetry j gs trigger parameters world).2.1.length = R + 1
    ∧ (execCommandWithRetry j gs trigger parameters world).1
        = (mkAttempt j gs trigger parameters world R).fin.run
    ∧ (∀ i, (mkAttempt j gs trigger parameters world i).trigger = attemptTrigger trigger i)
    ∧ (∀ i, (mkAttempt j gs trigger parameters world i).fin
        = finalize j gs
            (execCommand j (attemptTrigger trigger i) parameters (world i).env).run
            (world i).disk)
    ∧ attemptTrigger trigger 0 = trigger
    ∧ (∀ n, n ≠ 0 →
        attemptTrigger trigger n = trigger ++ "[retry=" ++ toString n ++ "]") := by
  have hfail2 : ∀ n, (mkAttempt j gs trigger parameters world n).fin.run.status ≠ 0 := by
    intro n
    rw [mkAttempt_status]
    exact hfail n
  have hb : (j.retries + 1).toNat = R + 1 := by
    rw [hR]
    omega
  unfold execCommandWithRetry
  rw [hb]
  rw [execRetryGo_all_fail j gs trigger parameters world hfail2 (R + 1) 0 {}]
  refine ⟨rfl, by simp, by simp, fun i => rfl, fun i => rfl, rfl, fun n hn => ?_⟩
  unfold attemptTrigger
  rw [if_neg hn]

/-- Witness for C2: a job with one retry and an always-failing process
performs exactly two attempts and returns the second attempt run. -/
theorem C2_failing_command_exhausts_attempts_witness :
    (∀ n, (execCommand { command := ["false"], retries := 1 } (attemptTrigger "cron" n) []
        ((worldFail n).env)).run.status ≠ 0)
    ∧ (execCommandWithRetry { command := ["false"], retries := 1 } none "cron" []
        worldFail).2.1.length = 1 + 1
    ∧ (execCommandWithRetry { command := ["false"], retries := 1 } none "cron" []
        worldFail).1
      = (mkAttempt { command := ["false"], retries := 1 } none "cron" []
          worldFail 1).fin.run := by
  have hfail : ∀ n, (execCommand { command := ["false"], retries := 1 }
      (attemptTrigger "cron" n) [] ((worldFail n).env)).run.status ≠ 0 := by
    intro n
    exact (by decide : (1 : Int) ≠ 0)
  have h := C2_failing_command_exhausts_attempts { command := ["false"], retries := 1 }
    none "cron" [] worldFail 1 rfl hfail
  exact ⟨hfail, h.2.1, h.2.2.1⟩

/-- C3: inside the retry loop the first attempt with status `0` stops the
loop at once: the attempts performed are exactly those up to the success,
the backoff sleeps are exactly one per failed attempt (none after the
success), the successful run is returned, and when success comes before
exhaustion the attempt count stays strictly below `R + 1`. -/
theorem C3_success_halts_retries (j : JobSpec) (gs : Option Schedule) (trigger : String)
    (parameters : Params) (world : Nat → AttemptEnv) (R s : Nat)
    (hR : j.retries = (R : Int)) (hs : s < R + 1)
    (hbefore : ∀ n, n < s → (execCommand j (attemptTrigger trigger n) parameters
        (world n).env).run.status ≠ 0)
    (hsucc : (execCommand j (attemptTrigger trigger s) parameters
        (world s).env).run.status = 0) :
    (execCommandWithRetry j gs trigger parameters world).2.1.length = s + 1
    ∧ (execCommandWithRetry j gs trigger parameters world).2.2 = s
    ∧ (execCommandWithRetry j gs trigger parameters world).1
        = (mkAttempt j gs trigger parameters world s).fin.run
    ∧ (execCommandWithRetry j gs trigger parameters world).1.status = 0
    ∧ (s + 1 < R + 1 →
        (execCommandWithRetry j gs trigger parameters world).2.1.length < R + 1) := by
  have hbefore2 : ∀ n, n < s →
      (mkAttempt j gs trigger parameters world n).fin.run.status ≠ 0 := by
    intro n hn
    rw [mkAttempt_status]
    exact hbefore n hn
  have hsucc2 : (mkAttempt j gs trigger parameters world s).fin.run.status = 0 := by
    rw [mkAttempt_status]
    exact hsucc
  have hb : (j.retries + 1).toNat = R + 1 := by
    rw [hR]
    omega
  unfold execCommandWithRetry
  rw [hb]
  rw [execRetryGo_success_at j gs trigger parameters world s hbefore2 hsucc2 (R + 1) 0 {}
      (by omega) (by omega)]
  refine ⟨by simp, by simp, rfl, ?_, fun h2 => by simpa using h2⟩
  exact hsucc2

/-- Witness for C3: with three retries available, a failure followed by a
success stops after two attempts and one backoff sleep. -/
theorem C3_success_halts_retries_witness :
    (1 < 3 + 1
      ∧ (∀ n, n < 1 → (execCommand { command := ["false"], retries := 3 }
          (attemptTrigger "cron" n) [] ((worldFailThenOk n).env)).run.status ≠ 0)
      ∧ (execCommand { command := ["false"], retries := 3 } (attemptTrigger "cron" 1) []
          ((worldFailThenOk 1).env)).run.status = 0)
    ∧ (execCommandWithRetry { command := ["false"], retries := 3 } none "cron" []
        worldFailThenOk).2.1.length = 1 + 1
    ∧ (execCommandWithRetry { command := ["false"], retries := 3 } none "cron" []
        worldFailThenOk).2.2 = 1
    ∧ (execCommandWithRetry { command := ["false"], retries := 3 } none "cron" []
        worldFailThenOk).1.status = 0
    ∧ (execCommandWithRetry { command := ["false"], retries := 3 } none "cron" []
        worldFailThenOk).2.1.length < 3 + 1 := by
  have hbefore : ∀ n, n < 1 → (execCommand { command := ["false"], retries := 3 }
      (attemptTrigger "cron" n) [] ((worldFailThenOk n).env)).run.status ≠ 0 := by
    intro n hn
    have h0 : n = 0 := by omega
    subst h0
    exact (by decide : (1 : Int) ≠ 0)
  have hsucc : (execCommand { command := ["false"], retries := 3 } (attemptTrigger "cron" 1) []
      ((worldFailThenOk 1).env)).run.status = 0 := rfl
  have h := C3_success_halts_retries { command := ["false"], retries := 3 } none "cron" []
    worldFailThenOk 3 1 rfl (by omega) hbefore hsucc
  exact ⟨⟨by omega, hbefore, hsucc⟩, h.1, h.2.1, h.2.2.2.1, h.2.2.2.2 (by omega)⟩

/-- C4: an execution attempt of a job with an empty command sequence fails
immediately: the returned run keeps the not-completed sentinel status `-1`,
its log carries the no-command-specified message, and no process spawn is
even attempted. -/
theorem C4_empty_command_fails_immediately (j : JobSpec) (trigger : String)
    (parameters : Params) (env : ExecEnv) (h : j.command = []) :
    (execCommand j trigger parameters env).run.status = -1
    ∧ (execCommand j trigger parameters env).run.log
        = "Job unable to start: no command specified"
    ∧ (execCommand j trigger parameters env).startAttempted = false
    ∧ (execCommand j trigger parameters env).argv = none := by
  unfold execCommand execArgv
  rw [h]
  exact ⟨rfl, rfl, rfl, rfl⟩

/-- Witness for C4 at a concrete empty-command job. -/
theorem C4_empty_command_fails_immediately_witness :
    ({ command := [] } : JobSpec).command = []
    ∧ ((execCommand { command := [] } "manual" []
          { te := { parse := fun s => .ok s, exec := fun t _ => .ok t },
            now := 0, elapsed := 0, proc := fun _ => .exited 0 "" }).run.status = -1
        ∧ (execCommand { command := [] } "manual" []
          { te := { parse := fun s => .ok s, exec := fun t _ => .ok t },
            now := 0, elapsed := 0, proc := fun _ => .exited 0 "" }).run.log
          = "Job unable to start: no command specified"
        ∧ (execCommand { command := [] } "manual" []
          { te := { parse := fun s => .ok s, exec := fun t _ => .ok t },
            now := 0, elapsed := 0, proc := fun _ => .exited 0 "" }).startAttempted = false
        ∧ (execCommand { command := [] } "manual" []
          { te := { parse := fun s => .ok s, exec := fun t _ => .ok t },
            now := 0, elapsed := 0, proc := fun _ => .exited 0 "" }).argv = none) :=
  ⟨rfl, C4_empty_command_fails_immediately _ "manual" [] _ rfl⟩

/-- C5: a failure to open or write the per-job log during finalization is
downgraded to a warning: the record is simply not persisted, the run keeps
its status, and the event cascade fired is exactly the one fired when
persistence succeeds. -/
theorem C5_log_failure_downgraded_to_warning (j : JobSpec) (gs : Option Schedule)
    (jr : JobRun) (d : DiskOutcome) (h : d.openOk = false ∨ d.writeOk = false) :
    (finalize j gs jr d).run.status = jr.status
    ∧ (finalize j gs jr d).persisted = false
    ∧ (finalize j gs jr d).warnings ≠ []
    ∧ (finalize j gs jr d).cascade
        = (finalize j gs jr { openOk := true, writeOk := true }).cascade := by
  obtain ⟨o, w⟩ := d
  rcases h with h | h <;> subst h
  · cases w <;> simp [finalize, logToDisk]
  · cases o <;> simp [finalize, logToDisk]

/-- Witness for C5 at a concrete run and a failing log-file open. -/
theorem C5_log_failure_downgraded_to_warning_witness :
    (({ openOk := false, writeOk := true } : DiskOutcome).openOk = false
      ∨ ({ openOk := false, writeOk := true } : DiskOutcome).writeOk = false)
    ∧ ((finalize { name := "a" } none { status := 3 } { openOk := false, writeOk := true }).run.status
          = ({ status := 3 } : JobRun).status
        ∧ (finalize { name := "a" } none { status := 3 } { openOk := false, writeOk := true }).persisted
          = false
        ∧ (finalize { name := "a" } none { status := 3 } { openOk := false, writeOk := true }).warnings
          ≠ []
        ∧ (finalize { name := "a" } none { status := 3 } { openOk := false, writeOk := true }).cascade
          = (finalize { name := "a" } none { status := 3 }
              { openOk := true, writeOk := true }).cascade) :=
  ⟨Or.inl rfl, C5_log_failure_downgraded_to_warning _ none _ _ (Or.inl rfl)⟩

/-- C6: the event cascade selects the `on_success` action lists when the
run status is `0` and the `on_error` lists otherwise, concatenates the
local lists with the global schedule lists (local first, global appended),
and records one retry-wrapped dispatch per dependent job name, looked up in
the schedule, with trigger descriptor `job[<parent>]` and empty
parameters. -/
theorem C6_cascade_selection_and_dispatch (j : JobSpec) (g : Schedule) (jr : JobRun) :
    ((j.OnEvent (some g) jr).jobTriggers.map (·.jobName)
        = if jr.status = 0 then j.onSuccess.triggerJob ++ g.onSuccess.triggerJob
          else j.onError.triggerJob ++ g.onError.triggerJob)
    ∧ ((j.OnEvent (some g) jr).webhookCalls
        = if jr.status = 0 then j.onSuccess.notifyWebhook ++ g.onSuccess.notifyWebhook
          else j.onError.notifyWebhook ++ g.onError.notifyWebhook)
    ∧ ((j.OnEvent (some g) jr).slackWebhookCalls
        = if jr.status = 0
          then j.onSuccess.notifySlackWebhook ++ g.onSuccess.notifySlackWebhook
          else j.onError.notifySlackWebhook ++ g.onError.notifySlackWebhook)
    ∧ ∀ t ∈ (j.OnEvent (some g) jr).jobTriggers,
        t.trigger = "job[" ++ j.name ++ "]" ∧ t.params = []
          ∧ t.job = lookupJob g t.jobName := by
  refine ⟨?_, ?_, ?_, ?_⟩
  · by_cases h : jr.status = 0 <;> simp [OnEvent_some, h, Function.comp_def, List.map_id]
  · by_cases h : jr.status = 0 <;> simp [OnEvent_some, h]
  · by_cases h : jr.status = 0 <;> simp [OnEvent_some, h]
  · intro t ht
    rw [OnEvent_some] at ht
    simp only [List.mem_map] at ht
    obtain ⟨tn, _, rfl⟩ := ht
    exact ⟨rfl, rfl, rfl⟩

/-- Witness for C6: a concrete error-status run with local and global
action lists; the dispatch order is local first, global appended. -/
theorem C6_cascade_selection_and_dispatch_witness :
    (jParent.OnEvent (some gGlobal) { status := 2 }).jobTriggers.map (·.jobName) = ["y", "x"]
    ∧ ∀ t ∈ (jParent.OnEvent (some gGlobal) { status := 2 }).jobTriggers,
        t.trigger = "job[p]" ∧ t.params = [] := by
  have h := C6_cascade_selection_and_dispatch jParent gGlobal { status := 2 }
  refine ⟨?_, fun t ht => ⟨(h.2.2.2 t ht).1, (h.2.2.2 t ht).2.1⟩⟩
  rw [h.1]
  decide

/-- C7: for a command with more than one element every element after the
first is rendered as a template against the supplied parameters, and an
argument whose parse or whose execution against the parameters fails is
passed through as the literal source string, argument by argument, without
aborting the command. -/
theorem C7_template_failure_falls_back_to_literal (j : JobSpec) (trigger : String)
    (parameters : Params) (env : ExecEnv) (c a : String) (rest : List String)
    (h : j.command = c :: a :: rest) :
    (execCommand j trigger parameters env).argv
        = some (c :: (a :: rest).map (renderParam env.te parameters))
    ∧ (∀ p e, env.te.parse p = .error e → renderParam env.te parameters p = p)
    ∧ (∀ p t e, env.te.parse p = .ok t → env.te.exec t parameters = .error e →
        renderParam env.te parameters p = p) := by
  have hA : execArgv env.te parameters j.command
      = some (c :: (a :: rest).map (renderParam env.te parameters)) := by
    rw [h]
    rfl
  refine ⟨?_, ?_, ?_⟩
  · rw [execCommand_some j trigger parameters env _ hA]
    cases env.proc (c :: (a :: rest).map (renderParam env.te parameters)) with
    | startFailure msg => rfl
    | waitOtherError out => rfl
    | exited code out => by_cases hc : code = 0 <;> simp [hc]
  · intro p e hp
    unfold renderParam
    rw [hp]
  · intro p t e hp he
    simp [renderParam, hp, he]

/-- Witness for C7: the middle argument renders the supplied parameter
value, the final argument has a failing parse and goes through literally,
and an unsupplied parameter also falls back to the literal argument. -/
theorem C7_template_failure_falls_back_to_literal_witness :
    ({ command := ["echo", "msgTmpl", "badTmpl"] } : JobSpec).command
        = "echo" :: "msgTmpl" :: ["badTmpl"]
    ∧ (execCommand { command := ["echo", "msgTmpl", "badTmpl"] } "cron" [("msg", "hello")]
        { te := teWitness, now := 0, elapsed := 0, proc := fun _ => .exited 0 "" }).argv
        = some ["echo", "hello", "badTmpl"]
    ∧ renderParam teWitness [] "msgTmpl" = "msgTmpl" := by
  have h := C7_template_failure_falls_back_to_literal
    { command := ["echo", "msgTmpl", "badTmpl"] } "cron" [("msg", "hello")]
    { te := teWitness, now := 0, elapsed := 0, proc := fun _ => .exited 0 "" }
    "echo" "msgTmpl" ["badTmpl"] rfl
  exact ⟨rfl, by rw [h.1]; rfl, rfl⟩

/-- C8: on a normal process exit the exit code becomes the run status
(`0` is success, non-zero codes are kept as-is), and the elapsed duration
is recorded only on the success path: a failing attempt, by non-zero exit
or by start failure, carries a zero duration. -/
theorem C8_exit_code_mapping_duration_on_success_only (j : JobSpec) (trigger : String)
    (parameters : Params) (env : ExecEnv) (argv : List String)
    (hA : execArgv env.te parameters j.command = some argv) :
    (∀ out, env.proc argv = .exited 0 out →
        (execCommand j trigger parameters env).run.status = 0
        ∧ (execCommand j trigger parameters env).run.duration = env.elapsed)
    ∧ (∀ code out, env.proc argv = .exited code out → code ≠ 0 →
        (execCommand j trigger parameters env).run.status = code
        ∧ (execCommand j trigger parameters env).run.duration = 0)
    ∧ (∀ msg, env.proc argv = .startFailure msg →
        (execCommand j trigger parameters env).run.status = -1
        ∧ (execCommand j trigger parameters env).run.duration = 0) := by
  rw [execCommand_some j trigger parameters env argv hA]
  refine ⟨?_, ?_, ?_⟩
  · intro out hp
    simp [hp]
  · intro code out hp hc
    simp [hp, hc]
  · intro msg hp
    simp [hp]

/-- Witness for C8: a successful exit records the elapsed duration, a
non-zero exit keeps the code with a zero duration. -/
theorem C8_exit_code_mapping_duration_on_success_only_witness :
    ((execCommand { command := ["true"] } "cron" [] (envExit 0 "ok")).run.status = 0
      ∧ (execCommand { command := ["true"] } "cron" [] (envExit 0 "ok")).run.duration
        = (envExit 0 "ok").elapsed)
    ∧ ((execCommand { command := ["false"] } "cron" [] (envExit 2 "no")).run.status = 2
      ∧ (execCommand { command := ["false"] } "cron" [] (envExit 2 "no")).run.duration = 0) :=
  ⟨(C8_exit_code_mapping_duration_on_success_only { command := ["true"] } "cron" []
      (envExit 0 "ok") ["true"] rfl).1 "ok" rfl,
   (C8_exit_code_mapping_duration_on_success_only { command := ["false"] } "cron" []
      (envExit 2 "no") ["false"] rfl).2.1 2 "no" rfl (by decide)⟩

/-- C9: the claim states that the run returned by `execCommand` records
the supplied parameter mapping in its `Params` field.  On the code this
fails: the field is declared (with a serialization tag) but no execution
path ever assigns it, so every returned run carries an empty `Params`
regardless of the mapping passed in. -/
theorem C9_params_field_never_populated :
    (∀ (j : JobSpec) (trigger : String) (parameters : Params) (env : ExecEnv),
        (execCommand j trigger parameters env).run.params = [])
    ∧ (execCommand { command := ["true"] } "manual" [("foo", "bar")]
        (envExit 0 "")).run.params ≠ [("foo", "bar")] := by
  constructor
  · intro j trigger parameters env
    cases hA : execArgv env.te parameters j.command with
    | none => rw [execCommand_none j trigger parameters env hA]
    | some argv =>
      rw [execCommand_some j trigger parameters env argv hA]
      cases env.proc argv with
      | startFailure msg => rfl
      | waitOtherError out => rfl
      | exited code out => by_cases hc : code = 0 <;> simp [hc]
  · decide

/-- C10: a negative `Retries` value makes the retry loop body run zero
times: no attempt, no finalization, and the returned run is the zero-value
`JobRun`, whose status `0` looks like a success; with `Retries ≥ 0` at
least one attempt always runs. -/
theorem C10_negative_retries_skip_loop (j : JobSpec) (gs : Option Schedule)
    (trigger : String) (parameters : Params) (world : Nat → AttemptEnv) :
    (j.retries < 0 →
        execCommandWithRetry j gs trigger parameters world = ({}, [], 0)
        ∧ ({} : JobRun).status = 0)
    ∧ (0 ≤ j.retries →
        1 ≤ (execCommandWithRetry j gs trigger parameters world).2.1.length) := by
  constructor
  · intro h
    have hb : (j.retries + 1).toNat = 0 := by omega
    unfold execCommandWithRetry
    rw [hb]
    exact ⟨rfl, rfl⟩
  · intro h
    have hb : (j.retries + 1).toNat = ((j.retries + 1).toNat - 1) + 1 := by omega
    unfold execCommandWithRetry
    rw [hb]
    by_cases h0 : (mkAttempt j gs trigger parameters world 0).fin.run.status = 0 <;>
      simp [execRetryGo, h0]

/-- Witness for C10 with retries `-1` (loop skipped, zero-value run
returned) and retries `0` (one attempt performed). -/
theorem C10_negative_retries_skip_loop_witness :
    (({ command := ["false"], retries := -1 } : JobSpec).retries < 0
      ∧ execCommandWithRetry { command := ["false"], retries := -1 } none "cron" [] worldFail
          = ({}, [], 0))
    ∧ (0 ≤ ({ command := ["false"], retries := 0 } : JobSpec).retries
      ∧ 1 ≤ (execCommandWithRetry { command := ["false"], retries := 0 } none "cron" []
          worldFail).2.1.length) :=
  ⟨⟨by decide,
    ((C10_negative_retries_skip_loop { command := ["false"], retries := -1 } none "cron" []
      worldFail).1 (by decide)).1⟩,
   ⟨by decide,
    (C10_negative_retries_skip_loop { command := ["false"], retries := 0 } none "cron" []
      worldFail).2 (by decide)⟩⟩

end Cheek
